import Mathlib

/-
Verification of the Windows-specific filesystem adapter
(`lib/fs/basicfs_windows.go`) of syncthing.

The Go code is shallowly embedded: OS calls (attribute query/set, stat,
mkdir, long-path query, drive enumeration) are modelled as oracles packed
into environment structures, strings are Lean `String`s (lists of
characters), and `uint32` attribute masks are `Nat`s taken modulo 2^32
where the code relies on the width.  The Go standard-library path helpers
(`filepath.Clean`, `filepath.Dir`, `filepath.Base`, `filepath.VolumeName`,
`strings.HasPrefix`, `strings.TrimPrefix`) are embedded from their Windows
implementations since `resolveWin83` and `mkdirAll` depend on them.
-/

deriving instance DecidableEq for Except

namespace Win

/-- Go `error` values as they occur in this adapter: plain messages
(`errors.New`, `fmt.Errorf`), `os.PathError` values, and raw errno values. -/
inductive GoErr where
  | msg (s : String)
  | pathErr (op : String) (path : String) (errno : Nat)
  | errno (n : Nat)
deriving DecidableEq

/-- Errno returned by `syscall.UTF16PtrFromString` on an interior NUL. -/
def EINVAL : Nat := 22

/-- Errno used by `mkdirAll` for the existing-non-directory error. -/
def ENOTDIR : Nat := 20

/-- Windows `os.IsPathSeparator`: both slash characters separate paths. -/
def IsPathSeparator (c : Char) : Bool := c == '\\' || c == '/'

/-- Number of characters of a list before its first path separator (the
whole length if it has none).  This realises the forward scans
`for ; n < l; n++ { if isSlash(path[n]) break }` of the Go code: the scan
started at absolute index `n` stops at `n + nextSepSuffix (drop n path)`. -/
def nextSepSuffix : List Char → Nat
  | [] => 0
  | c :: rest => if IsPathSeparator c then 0 else 1 + nextSepSuffix rest

/-- First index at or after `n` holding a path separator, or the length. -/
def nextSep (pl : List Char) (n : Nat) : Nat := n + nextSepSuffix (pl.drop n)

/-- Outer scan of the UNC case of `volumeNameLen`, over the suffix of the
path starting at absolute index `n` (the Go loop runs `n` from `3` while
`n < l-1`, i.e. while at least two characters remain): find the separator
after the host component and measure the share component.  Returns `0`
when no UNC share is recognised. -/
def uncScanOuterS : List Char → Nat → Nat
  | c1 :: c2 :: rest, n =>
    if IsPathSeparator c1 then
      if !IsPathSeparator c2 then
        if c2 == '.' then 0
        else (n + 1) + nextSepSuffix (c2 :: rest)
      else 0
    else uncScanOuterS (c2 :: rest) (n + 1)
  | _, _ => 0

/-- Go `filepath.volumeNameLen` (Windows): length of the leading volume
name, i.e. `2` for a drive letter `C:`, the length of `\\host\share` for a
UNC path, and `0` otherwise. -/
def volumeNameLen (p : List Char) : Nat :=
  if p.length < 2 then 0
  else
    let c := p.getD 0 ' '
    if p.getD 1 ' ' == ':' &&
        ((decide ('a' ≤ c) && decide (c ≤ 'z')) || (decide ('A' ≤ c) && decide (c ≤ 'Z'))) then 2
    else if decide (5 ≤ p.length) && IsPathSeparator (p.getD 0 ' ') &&
        IsPathSeparator (p.getD 1 ' ') && !IsPathSeparator (p.getD 2 ' ') &&
        p.getD 2 ' ' != '.' then
      uncScanOuterS (p.drop 3) 3
    else 0

/-- Go `filepath.VolumeName` (Windows). -/
def VolumeName (s : String) : String := String.mk (s.data.take (volumeNameLen s.data))

/-- Go `filepath.FromSlash` (Windows): replace `/` with the separator. -/
def fromSlash (s : String) : String :=
  String.mk (s.data.map fun c => if c == '/' then '\\' else c)

theorem nextSep_ge (pl : List Char) (n : Nat) : n ≤ nextSep pl n :=
  Nat.le_add_right n _

/-- Backtracking scan for the `..` case of `Clean`: after the initial
decrement the writer index `w` moves down while it is above `dotdot` and
the buffered character at `w` is not a separator. -/
def cleanBackW (buf : List Char) (dotdot : Nat) : Nat → Nat
  | 0 => 0
  | w + 1 =>
    if dotdot < w + 1 && !IsPathSeparator (buf.getD (w + 1) ' ') then
      cleanBackW buf dotdot w
    else w + 1

/-- Main loop of Go `filepath.Clean` (Windows), with the lazybuf realised
as a plain character list `out` of the characters written so far.  The
first argument is fuel: the loop advances the read index `r` by at least
one per iteration, so any fuel exceeding `pl.length - r` yields the loop's
true result (`cleanLoopF_adequate`); `Clean` passes such a fuel. -/
def cleanLoopF (pl : List Char) (rooted : Bool) :
    Nat → Nat → List Char → Nat → List Char
  | 0, _, out, _ => out
  | fuel + 1, r, out, dotdot =>
    if r < pl.length then
      let c := pl.getD r ' '
      if IsPathSeparator c then
        cleanLoopF pl rooted fuel (r + 1) out dotdot
      else if c == '.' && (r + 1 == pl.length || IsPathSeparator (pl.getD (r + 1) ' ')) then
        cleanLoopF pl rooted fuel (r + 1) out dotdot
      else if c == '.' && pl.getD (r + 1) ' ' == '.' &&
          (r + 2 == pl.length || IsPathSeparator (pl.getD (r + 2) ' ')) then
        if dotdot < out.length then
          let w := cleanBackW out dotdot (out.length - 1)
          cleanLoopF pl rooted fuel (r + 2) (out.take w) dotdot
        else if !rooted then
          let out2 := (if out.length ≠ 0 then out ++ ['\\'] else out) ++ ['.', '.']
          cleanLoopF pl rooted fuel (r + 2) out2 out2.length
        else
          cleanLoopF pl rooted fuel (r + 2) out dotdot
      else
        let out2 :=
          if (rooted && out.length != 1) || (!rooted && out.length != 0) then out ++ ['\\']
          else out
        let e := nextSep pl (r + 1)
        cleanLoopF pl rooted fuel e (out2 ++ [c] ++ (pl.drop (r + 1)).take (e - (r + 1))) dotdot
    else out

/-- The fuel of `cleanLoopF` is irrelevant once it exceeds the number of
unread characters, so the fuelled loop computes the Go loop's result. -/
theorem cleanLoopF_adequate (pl : List Char) (rooted : Bool) :
    ∀ fuel₁ fuel₂ r out dotdot, pl.length - r < fuel₁ → pl.length - r < fuel₂ →
      cleanLoopF pl rooted fuel₁ r out dotdot = cleanLoopF pl rooted fuel₂ r out dotdot := by
  intro fuel₁
  induction fuel₁ with
  | zero => intro fuel₂ r out dotdot h1; omega
  | succ fuel ih =>
    intro fuel₂ r out dotdot h1 h2
    match fuel₂, h2 with
    | fuel₂ + 1, h2 =>
      show cleanLoopF pl rooted (fuel + 1) r out dotdot
          = cleanLoopF pl rooted (fuel₂ + 1) r out dotdot
      simp only [cleanLoopF]
      by_cases hr : r < pl.length
      · simp only [hr, if_true]
        have hsep := nextSep_ge pl (r + 1)
        split
        · exact ih _ _ _ _ (by omega) (by omega)
        · split
          · exact ih _ _ _ _ (by omega) (by omega)
          · split
            · split
              · exact ih _ _ _ _ (by omega) (by omega)
              · split
                · exact ih _ _ _ _ (by omega) (by omega)
                · exact ih _ _ _ _ (by omega) (by omega)
            · exact ih _ _ _ _ (by omega) (by omega)
      · simp only [hr, if_false]

/-- Go `filepath.Clean` (Windows). -/
def Clean (path : String) : String :=
  let volLen := volumeNameLen path.data
  let pl := path.data.drop volLen
  if pl.isEmpty then
    if decide (1 < volLen) && path.data.getD 1 ' ' != ':' then fromSlash path
    else String.mk (path.data ++ ['.'])
  else
    let rooted := IsPathSeparator (pl.getD 0 ' ')
    let out :=
      if rooted then cleanLoopF pl rooted (pl.length + 1) 1 ['\\'] 1
      else cleanLoopF pl rooted (pl.length + 1) 0 [] 0
    let out2 := if out.isEmpty then ['.'] else out
    fromSlash (String.mk (path.data.take volLen ++ out2))

/-- Backward scan of Go `filepath.Dir`: the argument plays the role of
`i + 1`, so the loop runs while `volLen ≤ i` and `p[i]` is not a
separator, and `0` corresponds to Go's exit value `i = -1`. -/
def dirScanK (p : List Char) (volLen : Nat) : Nat → Nat
  | 0 => 0
  | k + 1 =>
    if volLen ≤ k && !IsPathSeparator (p.getD k ' ') then dirScanK p volLen k
    else k + 1

/-- Go `filepath.Dir` (Windows). -/
def Dir (path : String) : String :=
  let volLen := volumeNameLen path.data
  let k := dirScanK path.data volLen path.data.length
  let dir := Clean (String.mk ((path.data.take k).drop volLen))
  if dir == "." && decide (2 < volLen) then String.mk (path.data.take volLen)
  else String.mk (path.data.take volLen) ++ dir

/-- Trailing-separator strip of Go `filepath.Base`: the loop
`for len(path) > 0 && sep(path[len-1]) { path = path[:len-1] }` removes
exactly the maximal run of separators at the end. -/
def dropTrailSep (p : List Char) : List Char :=
  (p.reverse.dropWhile IsPathSeparator).reverse

/-- Index one past the last separator strictly before index `k` in `p`, or
`0` if none: realises the `lastSlash`/`i+1` slicing of Go `filepath.Base`. -/
def lastSlashIdx (p : List Char) : Nat → Nat
  | 0 => 0
  | k + 1 => if IsPathSeparator (p.getD k ' ') then k + 1 else lastSlashIdx p k

/-- Go `filepath.Base` (Windows). -/
def Base (path : String) : String :=
  if path.data.isEmpty then "."
  else
    let p1 := dropTrailSep path.data
    let p2 := p1.drop (volumeNameLen p1)
    let p3 := p2.drop (lastSlashIdx p2 p2.length)
    if p3.isEmpty then "\\" else String.mk p3

/-- Go `strings.HasPrefix` (byte prefix coincides with character prefix on
valid UTF-8 strings). -/
def hasPrefixGo (s pre : String) : Bool := List.isPrefixOf pre.data s.data

/-- Go `strings.TrimPrefix`. -/
def trimPrefixOf (s pre : String) : String :=
  if hasPrefixGo s pre then String.mk (s.data.drop pre.data.length) else s

/-- Go `strings.Contains(s, "~")`. -/
def containsTilde (s : String) : Bool := s.data.contains '~'

/-- Whether the string contains an interior NUL character, the condition
under which `syscall.UTF16PtrFromString` / `UTF16FromString` fail. -/
def containsNul (s : String) : Bool := s.data.contains (Char.ofNat 0)

/-- Modelled from the spec: the known temporary-file prefix constant
(`WindowsTempPrefix`) is defined outside this file; the surrounding
project sets it to `"~syncthing~"`. -/
def WindowsTempPrefix : String := "~syncthing~"

/-- `isMaybeWin83` from `basicfs_windows.go`. -/
def isMaybeWin83 (absPath : String) : Bool :=
  if !containsTilde absPath then false
  else if containsTilde (Dir absPath) then true
  else containsTilde (trimPrefixOf (Base absPath) WindowsTempPrefix)

/-- The receiver type: only the configured root is relevant here. -/
structure BasicFilesystem where
  root : String

/-- The sentinel `errNotSupported = errors.New("symlinks not supported")`. -/
def errNotSupported : GoErr := GoErr.msg "symlinks not supported"

/-- `(BasicFilesystem) SymlinksSupported` from `basicfs_windows.go`. -/
def SymlinksSupported (_f : BasicFilesystem) : Bool := false

/-- `(BasicFilesystem) ReadSymlink` from `basicfs_windows.go`. -/
def ReadSymlink (_f : BasicFilesystem) (_path : String) : Except GoErr String :=
  .error errNotSupported

/-- `(BasicFilesystem) CreateSymlink` from `basicfs_windows.go`. -/
def CreateSymlink (_f : BasicFilesystem) (_target _name : String) : Except GoErr Unit :=
  .error errNotSupported

/-- `syscall.FILE_ATTRIBUTE_HIDDEN`. -/
def FILE_ATTRIBUTE_HIDDEN : Nat := 2

/-- `windows.FILE_ATTRIBUTE_SYSTEM`. -/
def FILE_ATTRIBUTE_SYSTEM : Nat := 4

/-- The literal `0x00002000` used for `FILE_ATTRIBUTE_NOT_CONTENT_INDEXED`. -/
def FILE_ATTRIBUTE_NOT_CONTENT_INDEXED : Nat := 8192

/-- Environment of the attribute operations: the external `rooted`
collaborator and the error values the OS produces when an attribute
query/set fails on a missing file. -/
structure AttrEnv where
  rooted : String → Except GoErr String
  getErr : String → GoErr
  setErr : String → GoErr

/-- OS state seen by the attribute operations: the attribute bitmask of
each (rooted, absolute) path, `none` when the file does not exist, so that
attribute queries and sets on it fail. -/
structure AttrState where
  attrs : String → Option Nat

/-- `syscall.UTF16PtrFromString` succeeds iff the string has no NUL. -/
def utf16OK (s : String) : Bool := !containsNul s

/-- `syscall.GetFileAttributes`. -/
def sysGetFileAttributes (env : AttrEnv) (st : AttrState) (p : String) : Except GoErr Nat :=
  match st.attrs p with
  | some a => .ok a
  | none => .error (env.getErr p)

/-- `syscall.SetFileAttributes`: overwrites the mask of an existing file,
fails on a missing one, returning the unchanged state with the error. -/
def sysSetFileAttributes (env : AttrEnv) (st : AttrState) (p : String) (a : Nat) :
    AttrState × Option GoErr :=
  match st.attrs p with
  | some _ => (⟨fun q => if q = p then some a else st.attrs q⟩, none)
  | none => (st, some (env.setErr p))

/-- `(*BasicFilesystem) GetFileAttributes` from `basicfs_windows.go`. -/
def GetFileAttributes (env : AttrEnv) (st : AttrState) (name : String) : Except GoErr Nat :=
  match env.rooted name with
  | .error e => .error e
  | .ok p =>
    if utf16OK p then sysGetFileAttributes env st p
    else .error (GoErr.errno EINVAL)

/-- `(*BasicFilesystem) SetFileAttributes` from `basicfs_windows.go`. -/
def SetFileAttributes (env : AttrEnv) (st : AttrState) (name : String) (attrs : Nat) :
    AttrState × Option GoErr :=
  match env.rooted name with
  | .error e => (st, some e)
  | .ok p =>
    if utf16OK p then sysSetFileAttributes env st p attrs
    else (st, some (GoErr.errno EINVAL))

/-- `(*BasicFilesystem) AddFileAttributes` from `basicfs_windows.go`. -/
def AddFileAttributes (env : AttrEnv) (st : AttrState) (name : String) (newAttrs : Nat) :
    AttrState × Option GoErr :=
  match env.rooted name with
  | .error e => (st, some e)
  | .ok p =>
    if utf16OK p then
      match sysGetFileAttributes env st p with
      | .error e => (st, some e)
      | .ok attrs =>
        let newAttrs2 := newAttrs &&&
          ( FILE_ATTRIBUTE_HIDDEN ||| FILE_ATTRIBUTE_SYSTEM ||| FILE_ATTRIBUTE_NOT_CONTENT_INDEXED)
        sysSetFileAttributes env st p (attrs ||| newAttrs2)
    else (st, some (GoErr.errno EINVAL))

/-- `(*BasicFilesystem) Hide` from `basicfs_windows.go`. -/
def Hide (env : AttrEnv) (st : AttrState) (name : String) : AttrState × Option GoErr :=
  match env.rooted name with
  | .error e => (st, some e)
  | .ok p =>
    if utf16OK p then
      match sysGetFileAttributes env st p with
      | .error e => (st, some e)
      | .ok attrs => sysSetFileAttributes env st p (attrs ||| FILE_ATTRIBUTE_HIDDEN)
    else (st, some (GoErr.errno EINVAL))

/-- `(*BasicFilesystem) Unhide` from `basicfs_windows.go`: `attrs &^= hidden`
is bitwise and-not on `uint32`, i.e. conjunction with the complement of
the hidden bit within 32 bits. -/
def Unhide (env : AttrEnv) (st : AttrState) (name : String) : AttrState × Option GoErr :=
  match env.rooted name with
  | .error e => (st, some e)
  | .ok p =>
    if utf16OK p then
      match sysGetFileAttributes env st p with
      | .error e => (st, some e)
      | .ok attrs => sysSetFileAttributes env st p (attrs &&& (4294967295 ^^^ FILE_ATTRIBUTE_HIDDEN))
    else (st, some (GoErr.errno EINVAL))

/-- Environment of `mkdirAll`: the `os.Stat` / `os.Lstat` oracles (result:
whether the entry is a directory) and the `os.Mkdir` oracle (`none` means
success). -/
structure MkdirEnv where
  stat : String → Except GoErr Bool
  lstat : String → Except GoErr Bool
  mkdir : String → Nat → Option GoErr

/-- The scan `i := len(path); for i > 0 && IsPathSeparator(path[i-1]) { i-- }`
of `mkdirAll`, skipping the trailing path separators. -/
def skipTrailSepIdx (p : List Char) : Nat → Nat
  | 0 => 0
  | i + 1 => if IsPathSeparator (p.getD i ' ') then skipTrailSepIdx p i else i + 1

/-- The scan `j := i; for j > 0 && !IsPathSeparator(path[j-1]) { j-- }` of
`mkdirAll`, moving backward over the final path element. -/
def elemStartIdx (p : List Char) : Nat → Nat
  | 0 => 0
  | j + 1 => if !IsPathSeparator (p.getD j ' ') then elemStartIdx p j else j + 1

/-- The element-start index `j` of `mkdirAll` for a given path: the result
of the two backward scans starting from the path length. -/
def mkdirElemStart (path : String) : Nat :=
  elemStartIdx path.data (skipTrailSepIdx path.data path.data.length)

/-- The parent prefix `path[0 : j-1]` that `mkdirAll` recurses on. -/
def mkdirParent (path : String) : String :=
  String.mk (path.data.take (mkdirElemStart path - 1))

/-- `(*BasicFilesystem) mkdirAll` from `basicfs_windows.go`, fuelled: the
first `Nat` bounds the recursion depth, which is at most the path length
since each recursive call is on a strictly shorter parent prefix
(`mkdirAllF_adequate`); the `mkdirAll` wrapper passes such a fuel.  The
second component of the result records the paths passed to `os.Mkdir`, in
call order. -/
def mkdirAllF (env : MkdirEnv) : Nat → String → Nat → Except GoErr Unit × List String
  | 0, _, _ => (.error (GoErr.msg "out of fuel"), [])
  | fuel + 1, path, perm =>
    match env.stat path with
    | .ok isDir =>
      if isDir then (.ok (), [])
      else (.error (GoErr.pathErr "mkdir" path ENOTDIR), [])
    | .error _ =>
      match (if 1 < mkdirElemStart path then
              if mkdirParent path ≠ VolumeName (mkdirParent path) then
                mkdirAllF env fuel (mkdirParent path) perm
              else (Except.ok (), ([] : List String))
             else (Except.ok (), ([] : List String))) with
      | (.error e, tr) => (.error e, tr)
      | (.ok _, tr) =>
        match env.mkdir path perm with
        | none => (.ok (), tr ++ [path])
        | some e =>
          match env.lstat path with
          | .ok true => (.ok (), tr ++ [path])
          | _ => (.error e, tr ++ [path])

/-- `mkdirAll` with adequate fuel. -/
def mkdirAll (env : MkdirEnv) (path : String) (perm : Nat) :
    Except GoErr Unit × List String :=
  mkdirAllF env (path.data.length + 1) path perm

theorem skipTrailSepIdx_le (p : List Char) : ∀ k, skipTrailSepIdx p k ≤ k := by
  intro k
  induction k with
  | zero => exact le_refl 0
  | succ k ih =>
    simp only [skipTrailSepIdx]
    split
    · exact le_trans ih (Nat.le_succ k)
    · exact le_refl _

theorem elemStartIdx_le (p : List Char) : ∀ k, elemStartIdx p k ≤ k := by
  intro k
  induction k with
  | zero => exact le_refl 0
  | succ k ih =>
    simp only [elemStartIdx]
    split
    · exact le_trans ih (Nat.le_succ k)
    · exact le_refl _

theorem mkdirElemStart_le (path : String) : mkdirElemStart path ≤ path.data.length :=
  le_trans (elemStartIdx_le _ _) (skipTrailSepIdx_le _ _)

theorem mkdirParent_length_lt (path : String) (h : 1 < mkdirElemStart path) :
    (mkdirParent path).data.length < path.data.length := by
  have h1 := mkdirElemStart_le path
  have h2 : (mkdirParent path).data.length = min (mkdirElemStart path - 1) path.data.length := by
    simp [mkdirParent]
  omega

/-- The fuel of `mkdirAllF` is irrelevant once it exceeds the path length,
so the fuelled recursion computes the Go recursion's result. -/
theorem mkdirAllF_adequate (env : MkdirEnv) :
    ∀ fuel₁ fuel₂ path perm, path.data.length < fuel₁ → path.data.length < fuel₂ →
      mkdirAllF env fuel₁ path perm = mkdirAllF env fuel₂ path perm := by
  intro fuel₁
  induction fuel₁ with
  | zero => intro fuel₂ path perm h1 _; omega
  | succ fuel ih =>
    intro fuel₂ path perm h1 h2
    match fuel₂, h2 with
    | fuel₂ + 1, h2 =>
      show mkdirAllF env (fuel + 1) path perm = mkdirAllF env (fuel₂ + 1) path perm
      simp only [mkdirAllF]
      cases env.stat path with
      | ok d => rfl
      | error e0 =>
        have hpar : (if 1 < mkdirElemStart path then
                if mkdirParent path ≠ VolumeName (mkdirParent path) then
                  mkdirAllF env fuel (mkdirParent path) perm
                else (Except.ok (), ([] : List String))
               else (Except.ok (), ([] : List String)))
            = (if 1 < mkdirElemStart path then
                if mkdirParent path ≠ VolumeName (mkdirParent path) then
                  mkdirAllF env fuel₂ (mkdirParent path) perm
                else (Except.ok (), ([] : List String))
               else (Except.ok (), ([] : List String))) := by
          by_cases hgt : 1 < mkdirElemStart path
          · rw [if_pos hgt, if_pos hgt]
            by_cases hvol : mkdirParent path ≠ VolumeName (mkdirParent path)
            · rw [if_pos hvol, if_pos hvol]
              have hlt := mkdirParent_length_lt path hgt
              exact ih fuel₂ (mkdirParent path) perm (by omega) (by omega)
            · rw [if_neg hvol, if_neg hvol]
          · rw [if_neg hgt, if_neg hgt]
        rw [hpar]

/-- Environment of `Roots`: possible failures of `LoadDLL`/`FindProc`,
whether the `GetLogicalDriveStringsA` call reports success (`hr ≠ 0`), and
the contents of the byte buffer after the call (the code reads the whole
fixed-size buffer `buffer[:]`). -/
structure RootsEnv where
  loadDLLErr : Option GoErr
  findProcErr : Option GoErr
  callOk : Bool
  buffer : List Nat

/-- `bytes.Split(buffer, []byte{0})`: the segments between NUL bytes. -/
def bytesSplitNul : List Nat → List (List Nat)
  | [] => [[]]
  | b :: rest =>
    if b = 0 then [] :: bytesSplitNul rest
    else
      match bytesSplitNul rest with
      | [] => [[b]]
      | part :: parts => (b :: part) :: parts

/-- The collection loop of `Roots`: keep the segments up to the first
empty one. -/
def collectDrives : List (List Nat) → List (List Nat)
  | [] => []
  | part :: rest => if part.length = 0 then [] else part :: collectDrives rest

/-- `(*BasicFilesystem) Roots` from `basicfs_windows.go`.  Drive strings
are byte lists (`string(part)` keeps the raw bytes). -/
def Roots (env : RootsEnv) : Except GoErr (List (List Nat)) :=
  match env.loadDLLErr with
  | some e => .error e
  | none =>
    match env.findProcErr with
    | some e => .error e
    | none =>
      if env.callOk then .ok (collectDrives (bytesSplitNul env.buffer))
      else .error (GoErr.msg "Syscall failed")

/-- Environment of `resolveWin83`: the `GetLongPathName` oracle.  `some s`
means the query (including the retry with an exactly-sized buffer when the
first buffer was too small) delivers `s`; `none` means it fails. -/
structure LongPathEnv where
  long : String → Option String

/-- The fallback walk-up loop of `resolveWin83`:
`for absPath = filepath.Dir(absPath); strings.HasPrefix(absPath, f.root);
absPath = filepath.Dir(absPath) { if !isMaybeWin83(absPath) { return absPath } }`
followed by `return f.root`.  The loop need not terminate, so it is
fuelled: `none` means the fuel ran out before the loop exited.  The caller
passes the already-`Dir`ed path. -/
def walkUp (f : BasicFilesystem) : Nat → String → Option String
  | 0, _ => none
  | fuel + 1, p =>
    if hasPrefixGo p f.root then
      if !isMaybeWin83 p then some p
      else walkUp f fuel (Dir p)
    else some f.root

/-- `(*BasicFilesystem) resolveWin83` from `basicfs_windows.go`.  The
`syscall.UTF16FromString` conversion fails exactly on interior NULs, in
which case the code falls through to the walk-up fallback, as it does when
the long-path query fails. -/
def resolveWin83 (env : LongPathEnv) (f : BasicFilesystem) (fuel : Nat)
    (absPath : String) : Option String :=
  if !isMaybeWin83 absPath then some absPath
  else if containsNul absPath then walkUp f fuel (Dir absPath)
  else
    match env.long absPath with
    | some out => some out
    | none => walkUp f fuel (Dir absPath)

theorem testBit_addMask (i : Nat) :
    (8198 : Nat).testBit i = decide (i = 1 ∨ i = 2 ∨ i = 13) := by
  by_cases h : i < 14
  · interval_cases i <;> decide
  · have hpow : (8198 : Nat) < 2 ^ i := by
      calc (8198 : Nat) < 2 ^ 14 := by norm_num
        _ ≤ 2 ^ i := Nat.pow_le_pow_right (by norm_num) (by omega)
    have h2 : ¬ (i = 1 ∨ i = 2 ∨ i = 13) := by omega
    simp [Nat.testBit_lt_two_pow hpow, h2]

theorem testBit_unhideMask (i : Nat) :
    (4294967293 : Nat).testBit i = (decide (i < 32) && !decide (i = 1)) := by
  by_cases h : i < 32
  · interval_cases i <;> decide
  · have hpow : (4294967293 : Nat) < 2 ^ i := by
      calc (4294967293 : Nat) < 2 ^ 32 := by norm_num
        _ ≤ 2 ^ i := Nat.pow_le_pow_right (by norm_num) (by omega)
    simp [Nat.testBit_lt_two_pow hpow, h]

theorem testBit_two (i : Nat) : (2 : Nat).testBit i = decide (i = 1) := by
  by_cases h : i < 2
  · interval_cases i <;> decide
  · have hpow : (2 : Nat) < 2 ^ i := by
      calc (2 : Nat) < 2 ^ 2 := by norm_num
        _ ≤ 2 ^ i := Nat.pow_le_pow_right (by norm_num) (by omega)
    have h2 : ¬ i = 1 := by omega
    simp [Nat.testBit_lt_two_pow hpow, h2]

theorem or_two_and_unhideMask (a : Nat) :
    (a ||| 2) &&& 4294967293 = a &&& 4294967293 := by
  apply Nat.eq_of_testBit_eq
  intro i
  rw [Nat.testBit_land, Nat.testBit_lor, Nat.testBit_land, testBit_unhideMask, testBit_two]
  by_cases hi : i = 1
  · simp [hi]
  · simp [hi]

theorem and_unhideMask_self (a : Nat) (hlt : a < 4294967296) (h1 : a.testBit 1 = false) :
    a &&& 4294967293 = a := by
  apply Nat.eq_of_testBit_eq
  intro i
  rw [Nat.testBit_land, testBit_unhideMask]
  by_cases hi : i = 1
  · simp [hi, h1]
  · by_cases hlt32 : i < 32
    · simp [hi, hlt32]
    · have hpow : a < 2 ^ i := by
        calc a < 4294967296 := hlt
          _ = 2 ^ 32 := by norm_num
          _ ≤ 2 ^ i := Nat.pow_le_pow_right (by norm_num) (by omega)
      simp [Nat.testBit_lt_two_pow hpow]

/-- C9: `SymlinksSupported` always returns false, and `ReadSymlink` and
`CreateSymlink` always fail with the fixed "symlinks not supported"
sentinel, regardless of the paths, with no side effects (the operations
take no state and return none). -/
theorem symlinks_unsupported (f : BasicFilesystem) (p target name : String) :
    SymlinksSupported f = false ∧
    ReadSymlink f p = .error errNotSupported ∧
    CreateSymlink f target name = .error errNotSupported :=
  ⟨rfl, rfl, rfl⟩

/-- C8: every attribute operation propagates a failure of the `rooted`
collaborator verbatim, before any OS call, leaving the attribute state
unchanged. -/
theorem attr_ops_propagate_rooted_error (env : AttrEnv) (st : AttrState)
    (name : String) (e : GoErr) (m : Nat) (h : env.rooted name = .error e) :
    GetFileAttributes env st name = .error e ∧
    SetFileAttributes env st name m = (st, some e) ∧
    AddFileAttributes env st name m = (st, some e) ∧
    Hide env st name = (st, some e) ∧
    Unhide env st name = (st, some e) := by
  refine ⟨?_, ?_, ?_, ?_, ?_⟩ <;>
    simp only [GetFileAttributes, SetFileAttributes, AddFileAttributes, Hide, Unhide, h]

/-- Attribute environment whose `rooted` collaborator always fails. -/
def envRootedFail : AttrEnv :=
  ⟨fun _ => .error (GoErr.msg "path escapes root"), fun _ => GoErr.errno 2, fun _ => GoErr.errno 2⟩

/-- Witness for C8 at a concrete environment, state and name. -/
theorem attr_ops_propagate_rooted_error_witness :
    envRootedFail.rooted "a" = .error (GoErr.msg "path escapes root") ∧
    (GetFileAttributes envRootedFail ⟨fun _ => none⟩ "a" = .error (GoErr.msg "path escapes root") ∧
     SetFileAttributes envRootedFail ⟨fun _ => none⟩ "a" 7 = (⟨fun _ => none⟩, some (GoErr.msg "path escapes root")) ∧
     AddFileAttributes envRootedFail ⟨fun _ => none⟩ "a" 7 = (⟨fun _ => none⟩, some (GoErr.msg "path escapes root")) ∧
     Hide envRootedFail ⟨fun _ => none⟩ "a" = (⟨fun _ => none⟩, some (GoErr.msg "path escapes root")) ∧
     Unhide envRootedFail ⟨fun _ => none⟩ "a" = (⟨fun _ => none⟩, some (GoErr.msg "path escapes root"))) :=
  ⟨rfl, attr_ops_propagate_rooted_error envRootedFail ⟨fun _ => none⟩ "a"
    (GoErr.msg "path escapes root") 7 rfl⟩

/-- C1: when the rooted path resolves, converts, and exists with mask
`old`, `AddFileAttributes` succeeds and writes back `old ||| (req &&& 0x2006)`
(`0x2006 = hidden ||| system ||| not-content-indexed = 8198`): the three
permitted bits afterwards are the union of the prior mask and the request,
and every other bit of the mask is unchanged. -/
theorem addFileAttributes_spec (env : AttrEnv) (st : AttrState) (name p : String)
    (old req : Nat) (hroot : env.rooted name = .ok p) (hu : utf16OK p = true)
    (hold : st.attrs p = some old) :
    (AddFileAttributes env st name req).2 = none ∧
    GetFileAttributes env (AddFileAttributes env st name req).1 name = .ok (old ||| (req &&& 8198)) ∧
    (∀ i, (i = 1 ∨ i = 2 ∨ i = 13) →
      (old ||| (req &&& 8198)).testBit i = (old.testBit i || req.testBit i)) ∧
    (∀ i, ¬ (i = 1 ∨ i = 2 ∨ i = 13) →
      (old ||| (req &&& 8198)).testBit i = old.testBit i) := by
  have hmask : FILE_ATTRIBUTE_HIDDEN ||| FILE_ATTRIBUTE_SYSTEM |||
      FILE_ATTRIBUTE_NOT_CONTENT_INDEXED = 8198 := by decide
  have hAdd : AddFileAttributes env st name req =
      (⟨fun q => if q = p then some (old ||| (req &&& 8198)) else st.attrs q⟩, none) := by
    simp only [AddFileAttributes, hroot, hu, if_true, sysGetFileAttributes, hold,
      sysSetFileAttributes, hmask]
  refine ⟨by rw [hAdd], ?_, ?_, ?_⟩
  · rw [hAdd]
    simp only [GetFileAttributes, hroot, hu, if_true, sysGetFileAttributes, if_pos rfl]
  · intro i hi
    rw [Nat.testBit_lor, Nat.testBit_land, testBit_addMask]
    have : decide (i = 1 ∨ i = 2 ∨ i = 13) = true := by simp [hi]
    rw [this, Bool.and_true]
  · intro i hi
    rw [Nat.testBit_lor, Nat.testBit_land, testBit_addMask]
    have : decide (i = 1 ∨ i = 2 ∨ i = 13) = false := by simp [hi]
    rw [this, Bool.and_false, Bool.or_false]

/-- Attribute environment with a simple rooting collaborator that always
succeeds by prefixing the configured root. -/
def envAttrW : AttrEnv :=
  ⟨fun n => .ok ("C:\\r\\" ++ n), fun _ => GoErr.errno 2, fun _ => GoErr.errno 2⟩

/-- Attribute state with one file `C:\r\f` whose mask is 17
(readonly ||| directory-ish high bit: bits 0 and 4). -/
def stAttrW : AttrState := ⟨fun q => if q = "C:\\r\\f" then some 17 else none⟩

/-- Witness for C1: with prior mask 17 and request 255, the written mask
is `17 ||| (255 &&& 8198) = 23`. -/
theorem addFileAttributes_spec_witness :
    (envAttrW.rooted "f" = .ok "C:\\r\\f" ∧ utf16OK "C:\\r\\f" = true ∧
      stAttrW.attrs "C:\\r\\f" = some 17) ∧
    ((AddFileAttributes envAttrW stAttrW "f" 255).2 = none ∧
     GetFileAttributes envAttrW (AddFileAttributes envAttrW stAttrW "f" 255).1 "f" =
       .ok (17 ||| (255 &&& 8198)) ∧
     (∀ i, (i = 1 ∨ i = 2 ∨ i = 13) →
       ((17 : Nat) ||| (255 &&& 8198)).testBit i = ((17 : Nat).testBit i || (255 : Nat).testBit i)) ∧
     (∀ i, ¬ (i = 1 ∨ i = 2 ∨ i = 13) →
       ((17 : Nat) ||| (255 &&& 8198)).testBit i = (17 : Nat).testBit i)) :=
  ⟨⟨by decide, by decide, by decide⟩,
    addFileAttributes_spec envAttrW stAttrW "f" "C:\\r\\f" 17 255 (by decide) (by decide) (by decide)⟩

/-- Attribute state with one file `C:\r\f` whose mask 3 has the hidden
bit (bit 1) already set. -/
def stHiddenW : AttrState := ⟨fun q => if q = "C:\\r\\f" then some 3 else none⟩

/-- Counterexample to C2: on a file whose mask 3 already has the hidden
bit set, `Hide` then `Unhide` both succeed but leave mask 1, not the
original 3: the original mask is not restored. -/
theorem hide_unhide_cex :
    stHiddenW.attrs "C:\\r\\f" = some 3 ∧
    (Hide envAttrW stHiddenW "f").2 = none ∧
    (Unhide envAttrW (Hide envAttrW stHiddenW "f").1 "f").2 = none ∧
    (Unhide envAttrW (Hide envAttrW stHiddenW "f").1 "f").1.attrs "C:\\r\\f" = some 1 ∧
    (1 : Nat) ≠ 3 := by
  refine ⟨rfl, rfl, rfl, ?_, by decide⟩
  decide

/-- C2 as amended: `Hide` then `Unhide` yields the original mask with the
hidden bit cleared; it restores the original mask exactly when the hidden
bit was not set before the `Hide` call. -/
theorem hide_unhide_formula (env : AttrEnv) (st : AttrState) (name p : String)
    (a : Nat) (hroot : env.rooted name = .ok p) (hu : utf16OK p = true)
    (ha : st.attrs p = some a) (hlt : a < 4294967296) :
    (Unhide env (Hide env st name).1 name).1.attrs p = some (a &&& 4294967293) ∧
    (a.testBit 1 = false → (Unhide env (Hide env st name).1 name).1.attrs p = some a) := by
  have hc : (4294967295 ^^^ FILE_ATTRIBUTE_HIDDEN : Nat) = 4294967293 := by decide
  have hHide : Hide env st name =
      (⟨fun q => if q = p then some (a ||| 2) else st.attrs q⟩, none) := by
    simp only [Hide, hroot, hu, if_true, sysGetFileAttributes, ha, sysSetFileAttributes]
    rfl
  have hmain : (Unhide env (Hide env st name).1 name).1.attrs p = some (a &&& 4294967293) := by
    rw [hHide]
    simp only [Unhide, hroot, hu, if_true, sysGetFileAttributes, if_pos rfl,
      sysSetFileAttributes, hc]
    rw [or_two_and_unhideMask]
  refine ⟨hmain, fun h1 => ?_⟩
  rw [hmain, and_unhideMask_self a hlt h1]

/-- Attribute state with one file `C:\r\f` whose mask 5 has the hidden
bit clear. -/
def stNotHiddenW : AttrState := ⟨fun q => if q = "C:\\r\\f" then some 5 else none⟩

/-- Witness for the amended C2 at a concrete file with mask 5 (hidden bit
clear): `Hide` then `Unhide` restores 5. -/
theorem hide_unhide_formula_witness :
    (envAttrW.rooted "f" = .ok "C:\\r\\f" ∧ utf16OK "C:\\r\\f" = true ∧
      stNotHiddenW.attrs "C:\\r\\f" = some 5 ∧ (5 : Nat) < 4294967296) ∧
    ((Unhide envAttrW (Hide envAttrW stNotHiddenW "f").1 "f").1.attrs "C:\\r\\f" =
       some (5 &&& 4294967293) ∧
     ((5 : Nat).testBit 1 = false →
       (Unhide envAttrW (Hide envAttrW stNotHiddenW "f").1 "f").1.attrs "C:\\r\\f" = some 5)) :=
  ⟨⟨by decide, by decide, by decide, by decide⟩,
    hide_unhide_formula envAttrW stNotHiddenW "f" "C:\\r\\f" 5
      (by decide) (by decide) (by decide) (by decide)⟩

/-- C5: when the path already exists (`os.Stat` succeeds), `mkdirAll`
returns immediately without any `os.Mkdir` call (empty trace): success if
the entry is a directory, and the distinct `&os.PathError{"mkdir", path,
ENOTDIR}` — distinguishable from any propagated OS failure — otherwise. -/
theorem mkdirAll_fast_path (env : MkdirEnv) (path : String) (perm : Nat) (b : Bool)
    (h : env.stat path = .ok b) :
    mkdirAll env path perm =
      ((if b then .ok () else .error (GoErr.pathErr "mkdir" path ENOTDIR)), []) := by
  show mkdirAllF env (path.data.length + 1) path perm = _
  simp only [mkdirAllF, h]
  cases b <;> rfl

/-- Directory environment where `a\b` exists as a directory and every
other query fails; `os.Mkdir` always fails too. -/
def envDirExists : MkdirEnv :=
  ⟨fun q => if q = "a\\b" then .ok true else .error (GoErr.errno 2),
   fun _ => .error (GoErr.errno 2),
   fun _ _ => some (GoErr.errno 5)⟩

/-- Directory environment where `a\b` exists as a plain file. -/
def envFileExists : MkdirEnv :=
  ⟨fun q => if q = "a\\b" then .ok false else .error (GoErr.errno 2),
   fun _ => .error (GoErr.errno 2),
   fun _ _ => some (GoErr.errno 5)⟩

/-- Witness for C5, both directions: an existing directory yields
immediate success, an existing plain file yields the ENOTDIR path error,
with no mkdir call made in either case. -/
theorem mkdirAll_fast_path_witness :
    (envDirExists.stat "a\\b" = .ok true ∧ envFileExists.stat "a\\b" = .ok false) ∧
    mkdirAll envDirExists "a\\b" 511 =
      ((if true then .ok () else .error (GoErr.pathErr "mkdir" "a\\b" ENOTDIR)), []) ∧
    mkdirAll envFileExists "a\\b" 511 =
      ((if false then .ok () else .error (GoErr.pathErr "mkdir" "a\\b" ENOTDIR)), []) :=
  ⟨⟨by decide, by decide⟩,
    mkdirAll_fast_path envDirExists "a\\b" 511 true (by decide),
    mkdirAll_fast_path envFileExists "a\\b" 511 false (by decide)⟩

/-- C4: if the fast-path stat fails, the parent step succeeds (there is no
non-trivial parent, the parent is a volume name, or the recursive call
succeeds), and the direct `os.Mkdir` call fails with `em`, then `mkdirAll`
re-checks with the non-following `os.Lstat`: it succeeds exactly when the
target now exists as a directory, and otherwise propagates the original
mkdir error `em` — never the re-check's own error. -/
theorem mkdirAll_mkdir_failure_recheck (env : MkdirEnv) (path : String) (perm : Nat)
    (e0 em : GoErr)
    (hstat : env.stat path = .error e0)
    (hparent : ¬ 1 < mkdirElemStart path ∨ mkdirParent path = VolumeName (mkdirParent path) ∨
      (mkdirAll env (mkdirParent path) perm).1 = .ok ())
    (hmk : env.mkdir path perm = some em) :
    (mkdirAll env path perm).1 =
      (match env.lstat path with
       | .ok true => .ok ()
       | _ => .error em) := by
  show (mkdirAllF env (path.data.length + 1) path perm).1 = _
  simp only [mkdirAllF, hstat]
  have hpstep : (if 1 < mkdirElemStart path then
      if mkdirParent path ≠ VolumeName (mkdirParent path) then
        mkdirAllF env path.data.length (mkdirParent path) perm
      else (Except.ok (), ([] : List String))
     else (Except.ok (), ([] : List String))).1 = .ok () := by
    by_cases hgt : 1 < mkdirElemStart path
    · rw [if_pos hgt]
      by_cases hvol : mkdirParent path ≠ VolumeName (mkdirParent path)
      · rw [if_pos hvol]
        have hlt := mkdirParent_length_lt path hgt
        rw [mkdirAllF_adequate env path.data.length ((mkdirParent path).data.length + 1)
          (mkdirParent path) perm (by omega) (by omega)]
        rcases hparent with h | h | h
        · exact absurd hgt h
        · exact absurd h hvol
        · exact h
      · rw [if_neg hvol]
    · rw [if_neg hgt]
  rcases hres : (if 1 < mkdirElemStart path then
      if mkdirParent path ≠ VolumeName (mkdirParent path) then
        mkdirAllF env path.data.length (mkdirParent path) perm
      else (Except.ok (), ([] : List String))
     else (Except.ok (), ([] : List String))) with ⟨r, tr⟩
  rw [hres] at hpstep
  simp only at hpstep
  subst hpstep
  simp only [hmk]
  cases hl : env.lstat path with
  | ok b => cases b <;> rfl
  | error e1 => rfl

/-- Directory environment for the C4 witness: nothing stats, the parent
`a` is a directory, creating `a\b` fails with errno 5, but the
non-following re-check then reports `a\b` as a directory (another actor
created it). -/
def envRace : MkdirEnv :=
  ⟨fun q => if q = "a" then .ok true else .error (GoErr.errno 2),
   fun q => if q = "a\\b" then .ok true else .error (GoErr.errno 2),
   fun _ _ => some (GoErr.errno 5)⟩

/-- Witness for C4: with the racing environment, `mkdirAll "a\b"` returns
success because the lstat re-check sees a directory, despite the failing
mkdir call. -/
theorem mkdirAll_mkdir_failure_recheck_witness :
    (envRace.stat "a\\b" = .error (GoErr.errno 2) ∧
     (mkdirAll envRace (mkdirParent "a\\b") 511).1 = .ok () ∧
     envRace.mkdir "a\\b" 511 = some (GoErr.errno 5)) ∧
    (mkdirAll envRace "a\\b" 511).1 =
      (match envRace.lstat "a\\b" with
       | .ok true => .ok ()
       | _ => .error (GoErr.errno 5)) :=
  ⟨⟨by decide, by decide, by decide⟩,
    mkdirAll_mkdir_failure_recheck envRace "a\\b" 511 (GoErr.errno 2) (GoErr.errno 5)
      (by decide) (Or.inr (Or.inr (by decide))) (by decide)⟩

theorem collectDrives_eq_takeWhile :
    ∀ parts : List (List Nat), collectDrives parts = parts.takeWhile (fun p => !p.isEmpty) := by
  intro parts
  induction parts with
  | nil => rfl
  | cons part rest ih =>
    simp only [collectDrives, List.takeWhile_cons]
    cases part with
    | nil => rfl
    | cons b bs => simp [ih]

/-- C7: once the DLL and procedure lookups succeed, `Roots` fails exactly
when the OS call reports failure (`hr = 0`), and on success returns the
NUL-split segments of the buffer up to (excluding) the first empty
segment, in buffer order; an empty result is a success, not an error. -/
theorem roots_spec (env : RootsEnv) (h1 : env.loadDLLErr = none)
    (h2 : env.findProcErr = none) :
    (env.callOk = true →
      Roots env = .ok ((bytesSplitNul env.buffer).takeWhile (fun p => !p.isEmpty))) ∧
    (env.callOk = false → Roots env = .error (GoErr.msg "Syscall failed")) := by
  constructor
  · intro hok
    simp only [Roots, h1, h2, hok, if_true, collectDrives_eq_takeWhile]
  · intro hko
    simp only [Roots, h1, h2, hko, Bool.false_eq_true, if_false]

/-- Root-enumeration environment for the C7 witness: a successful call
whose buffer holds `C:\`, `D:\` and the double-NUL terminator followed by
stale garbage that must be ignored. -/
def envRootsW : RootsEnv :=
  ⟨none, none, true, [67, 58, 92, 0, 68, 58, 92, 0, 0, 99, 0, 0]⟩

/-- Root-enumeration environment whose OS call reports failure. -/
def envRootsFail : RootsEnv := ⟨none, none, false, [67, 58, 92, 0, 0]⟩

/-- Witness for C7: the success case returns exactly `[C:\, D:\]` (as byte
strings), and the failure case returns the "Syscall failed" error. -/
theorem roots_spec_witness :
    (envRootsW.loadDLLErr = none ∧ envRootsW.findProcErr = none ∧ envRootsW.callOk = true) ∧
    (Roots envRootsW = .ok ((bytesSplitNul envRootsW.buffer).takeWhile (fun p => !p.isEmpty)) ∧
     Roots envRootsW = .ok [[67, 58, 92], [68, 58, 92]]) ∧
    Roots envRootsFail = .error (GoErr.msg "Syscall failed") :=
  ⟨⟨rfl, rfl, rfl⟩,
   ⟨(roots_spec envRootsW rfl rfl).1 rfl, by decide⟩,
   (roots_spec envRootsFail rfl rfl).2 rfl⟩

theorem hasPrefixGo_refl (s : String) : hasPrefixGo s s = true := by
  simp [hasPrefixGo, List.isPrefixOf_iff_prefix]

/-- Exactly what the walk-up loop returns, when it returns: for some `k`
every earlier `Dir`-iterate of the start point was a candidate inside the
root-prefix region, and the `k`-th iterate either is the first
non-candidate still inside the region (and is returned), or is the first
iterate outside the region (and the root is returned). -/
theorem walkUp_characterize (f : BasicFilesystem) :
    ∀ fuel p r, walkUp f fuel p = some r →
      ∃ k, k < fuel ∧
        (∀ j, j < k → hasPrefixGo (Dir^[j] p) f.root = true ∧
          isMaybeWin83 (Dir^[j] p) = true) ∧
        ((hasPrefixGo (Dir^[k] p) f.root = true ∧ isMaybeWin83 (Dir^[k] p) = false ∧
            r = Dir^[k] p) ∨
         (hasPrefixGo (Dir^[k] p) f.root = false ∧ r = f.root)) := by
  intro fuel
  induction fuel with
  | zero => intro p r h; exact absurd h (by simp [walkUp])
  | succ fuel ih =>
    intro p r h
    simp only [walkUp] at h
    by_cases hpre : hasPrefixGo p f.root = true
    · rw [if_pos hpre] at h
      by_cases hm : isMaybeWin83 p = true
      · simp only [hm, Bool.not_true, Bool.false_eq_true, if_false] at h
        obtain ⟨k, hk, hchain, hlast⟩ := ih (Dir p) r h
        refine ⟨k + 1, by omega, ?_, ?_⟩
        · intro j hj
          cases j with
          | zero => simpa using ⟨hpre, hm⟩
          | succ j' =>
            rw [Function.iterate_succ_apply]
            exact hchain j' (by omega)
        · rw [Function.iterate_succ_apply]
          exact hlast
      · have hm' : isMaybeWin83 p = false := by simpa using hm
        simp only [hm', Bool.not_false, if_true] at h
        refine ⟨0, by omega, fun j hj => absurd hj (by omega), Or.inl ?_⟩
        simpa using ⟨hpre, hm', (Option.some.inj h).symm⟩
    · rw [if_neg hpre] at h
      have hpre' : hasPrefixGo p f.root = false := by simpa using hpre
      refine ⟨0, by omega, fun j hj => absurd hj (by omega), Or.inr ?_⟩
      simpa using ⟨hpre', (Option.some.inj h).symm⟩

/-- C3: whenever `absPath` is a short-name candidate, the long-path query
fails, and `resolveWin83` returns a value `r`, that value has the root as
a prefix, and it is exactly the first `Dir`-ancestor of `absPath` that is
not a candidate while all nearer ancestors were candidates inside the
root-prefix region — or the root itself, when the walk left the region
first. -/
theorem resolveWin83_fallback_spec (env : LongPathEnv) (f : BasicFilesystem)
    (fuel : Nat) (absPath r : String)
    (hm : isMaybeWin83 absPath = true)
    (hfail : env.long absPath = none)
    (hres : resolveWin83 env f fuel absPath = some r) :
    hasPrefixGo r f.root = true ∧
    ∃ k,
      (∀ j, j < k → hasPrefixGo (Dir^[j + 1] absPath) f.root = true ∧
        isMaybeWin83 (Dir^[j + 1] absPath) = true) ∧
      ((hasPrefixGo (Dir^[k + 1] absPath) f.root = true ∧
          isMaybeWin83 (Dir^[k + 1] absPath) = false ∧ r = Dir^[k + 1] absPath) ∨
       (hasPrefixGo (Dir^[k + 1] absPath) f.root = false ∧ r = f.root)) := by
  have hw : walkUp f fuel (Dir absPath) = some r := by
    simp only [resolveWin83, hm, Bool.not_true, Bool.false_eq_true, if_false] at hres
    by_cases hnul : containsNul absPath = true
    · rwa [if_pos hnul] at hres
    · rw [if_neg hnul, hfail] at hres
      exact hres
  obtain ⟨k, _, hchain, hlast⟩ := walkUp_characterize f fuel (Dir absPath) r hw
  have hshift : ∀ j, Dir^[j] (Dir absPath) = Dir^[j + 1] absPath := fun j =>
    (Function.iterate_succ_apply Dir j absPath).symm
  rw [hshift k] at hlast
  constructor
  · rcases hlast with ⟨h1, _, h3⟩ | ⟨_, h3⟩
    · rw [h3]; exact h1
    · rw [h3]; exact hasPrefixGo_refl f.root
  · exact ⟨k, fun j hj => by rw [← hshift j]; exact hchain j hj, hlast⟩

/-- Long-path environment whose query always fails. -/
def envLongFail : LongPathEnv := ⟨fun _ => none⟩

/-- Filesystem rooted at `C:\r`. -/
def fsRootW : BasicFilesystem := ⟨"C:\\r"⟩

/-- Witness for C3: under root `C:\r`, resolving the doubly short-named
non-existent `C:\r\a~b\c~d` walks up past the candidate `C:\r\a~b` to the
non-candidate root-prefixed ancestor `C:\r`. -/
theorem resolveWin83_fallback_spec_witness :
    (isMaybeWin83 "C:\\r\\a~b\\c~d" = true ∧
     envLongFail.long "C:\\r\\a~b\\c~d" = none ∧
     resolveWin83 envLongFail fsRootW 5 "C:\\r\\a~b\\c~d" = some "C:\\r") ∧
    (hasPrefixGo "C:\\r" fsRootW.root = true ∧
     ∃ k,
       (∀ j, j < k → hasPrefixGo (Dir^[j + 1] "C:\\r\\a~b\\c~d") fsRootW.root = true ∧
         isMaybeWin83 (Dir^[j + 1] "C:\\r\\a~b\\c~d") = true) ∧
       ((hasPrefixGo (Dir^[k + 1] "C:\\r\\a~b\\c~d") fsRootW.root = true ∧
           isMaybeWin83 (Dir^[k + 1] "C:\\r\\a~b\\c~d") = false ∧
           "C:\\r" = Dir^[k + 1] "C:\\r\\a~b\\c~d") ∨
        (hasPrefixGo (Dir^[k + 1] "C:\\r\\a~b\\c~d") fsRootW.root = false ∧
          "C:\\r" = fsRootW.root))) :=
  ⟨⟨by decide, rfl, by decide⟩,
    resolveWin83_fallback_spec envLongFail fsRootW 5 "C:\\r\\a~b\\c~d" "C:\\r"
      (by decide) rfl (by decide)⟩

/-- Long-path oracle that knows the long form of `C:\PROGRA~1` but fails
on paths that do not exist. -/
def envLongW : LongPathEnv :=
  ⟨fun s => if s = "C:\\PROGRA~1" then some "C:\\Program Files" else none⟩

/-- Filesystem whose configured root is itself a short-name candidate. -/
def fsProgW : BasicFilesystem := ⟨"C:\\PROGRA~1"⟩

/-- Counterexample to C6: with a root that is itself a short-name
candidate, resolving a non-existent path below it returns the root via
the fallback walk, but resolving that result again queries the OS and
returns its long form, a different path: applying `resolveWin83` twice
differs from applying it once. -/
theorem resolveWin83_not_idempotent_cex :
    resolveWin83 envLongW fsProgW 3 "C:\\PROGRA~1\\ab~cd" = some "C:\\PROGRA~1" ∧
    resolveWin83 envLongW fsProgW 3 "C:\\PROGRA~1" = some "C:\\Program Files" ∧
    some "C:\\Program Files" ≠ some "C:\\PROGRA~1" :=
  ⟨by decide, by decide, by decide⟩

/-- C6 as amended: any `resolveWin83` result that is not itself a
short-name candidate (in particular any path without the `~` marker) is a
fixed point, so a second application — with any fuel — returns it
unchanged; only a returned path that is itself a candidate (such as a
candidate root produced by the fallback) may resolve further. -/
theorem resolveWin83_fixed_of_not_candidate (env : LongPathEnv) (f : BasicFilesystem)
    (fuel fuel2 : Nat) (p r : String)
    (hres : resolveWin83 env f fuel p = some r)
    (hr : isMaybeWin83 r = false) :
    resolveWin83 env f fuel2 r = some r := by
  simp [resolveWin83, hr]

/-- Witness for the amended C6: the C3 witness result `C:\r` is not a
candidate, and a second application with zero fuel returns it unchanged. -/
theorem resolveWin83_fixed_of_not_candidate_witness :
    (resolveWin83 envLongFail fsRootW 5 "C:\\r\\a~b\\c~d" = some "C:\\r" ∧
     isMaybeWin83 "C:\\r" = false) ∧
    resolveWin83 envLongFail fsRootW 0 "C:\\r" = some "C:\\r" :=
  ⟨⟨by decide, by decide⟩,
    resolveWin83_fixed_of_not_candidate envLongFail fsRootW 5 0 "C:\\r\\a~b\\c~d" "C:\\r"
      (by decide) (by decide)⟩

/-- The fallback loop diverges on this start point under this root: no
amount of fuel makes `walkUp` return. -/
def walkUpDiverges (f : BasicFilesystem) (p : String) : Prop :=
  ∀ fuel, walkUp f fuel p = none

/-- `resolveWin83` diverges on this path: no amount of fuel makes it
return. -/
def resolveWin83Diverges (env : LongPathEnv) (f : BasicFilesystem) (p : String) : Prop :=
  ∀ fuel, resolveWin83 env f fuel p = none

/-- Filesystem rooted at a UNC share whose host name contains `~`. -/
def fsUNCW : BasicFilesystem := ⟨"\\\\ho~st\\share"⟩

/-- Counterexample to C10: under the UNC root `\\ho~st\share` (whose host
name contains the marker), resolving the non-existent `\\ho~st\share\a~b`
enters the fallback loop at `\\ho~st\share\`, which is a fixed point of
`filepath.Dir`, is still a candidate, and still has the root as a prefix:
the loop never exits, for any fuel. -/
theorem walkUp_diverges_cex :
    walkUpDiverges fsUNCW (Dir "\\\\ho~st\\share\\a~b") ∧
    resolveWin83Diverges envLongFail fsUNCW "\\\\ho~st\\share\\a~b" := by
  have hd : Dir "\\\\ho~st\\share\\a~b" = "\\\\ho~st\\share\\" := by decide
  have hfix : Dir "\\\\ho~st\\share\\" = "\\\\ho~st\\share\\" := by decide
  have hpre : hasPrefixGo "\\\\ho~st\\share\\" fsUNCW.root = true := by decide
  have hm : isMaybeWin83 "\\\\ho~st\\share\\" = true := by decide
  have hdiv : ∀ fuel, walkUp fsUNCW fuel "\\\\ho~st\\share\\" = none := by
    intro fuel
    induction fuel with
    | zero => rfl
    | succ fuel ih =>
      simp only [walkUp, hpre, if_true, hm, Bool.not_true, Bool.false_eq_true, if_false]
      rw [hfix]
      exact ih
  refine ⟨?_, ?_⟩
  · rw [hd]; exact hdiv
  · intro fuel
    have hm2 : isMaybeWin83 "\\\\ho~st\\share\\a~b" = true := by decide
    have hnul : containsNul "\\\\ho~st\\share\\a~b" = false := by decide
    simp only [resolveWin83, hm2, Bool.not_true, Bool.false_eq_true, if_false, hnul,
      envLongFail]
    rw [hd]
    exact hdiv fuel

/-- C10 as amended: the fallback loop terminates exactly on those inputs
whose `Dir`-iteration eventually escapes — i.e. whenever some iterate of
the start point either leaves the root-prefix region or stops being a
short-name candidate, some fuel suffices for `walkUp` to return.  (It does
not terminate for every path and root: see the UNC counterexample.) -/
theorem walkUp_terminates_of_escape (f : BasicFilesystem) :
    ∀ (k : Nat) (p : String),
      (hasPrefixGo (Dir^[k] p) f.root = false ∨ isMaybeWin83 (Dir^[k] p) = false) →
      ∃ fuel r, walkUp f fuel p = some r := by
  intro k
  induction k with
  | zero =>
    intro p hesc
    simp only [Function.iterate_zero_apply] at hesc
    by_cases hpre : hasPrefixGo p f.root = true
    · have hm : isMaybeWin83 p = false := by
        rcases hesc with h | h
        · rw [hpre] at h; exact absurd h (by simp)
        · exact h
      exact ⟨1, p, by simp [walkUp, hpre, hm]⟩
    · exact ⟨1, f.root, by simp [walkUp, hpre]⟩
  | succ k ih =>
    intro p hesc
    by_cases hpre : hasPrefixGo p f.root = true
    · by_cases hm : isMaybeWin83 p = true
      · obtain ⟨fuel, r, hr⟩ := ih (Dir p)
          (by simpa only [Function.iterate_succ_apply] using hesc)
        refine ⟨fuel + 1, r, ?_⟩
        simp only [walkUp, hpre, if_true, hm, Bool.not_true, Bool.false_eq_true, if_false]
        exact hr
      · have hm' : isMaybeWin83 p = false := by simpa using hm
        exact ⟨1, p, by simp [walkUp, hpre, hm']⟩
    · exact ⟨1, f.root, by simp [walkUp, hpre]⟩

/-- Witness for the amended C10: under root `C:\r`, the first iterate of
`C:\r\a~b` is already a non-candidate, so the walk terminates. -/
theorem walkUp_terminates_of_escape_witness :
    (hasPrefixGo (Dir^[1] "C:\\r\\a~b") fsRootW.root = false ∨
     isMaybeWin83 (Dir^[1] "C:\\r\\a~b") = false) ∧
    (∃ fuel r, walkUp fsRootW fuel "C:\\r\\a~b" = some r) :=
  ⟨Or.inr (by decide),
    walkUp_terminates_of_escape fsRootW 1 "C:\\r\\a~b" (Or.inr (by decide))⟩

end Win
